import Mathlib

/-!
Shallow embedding of the diff-and-sync engine of `sync-sqlite3` (src/core.ts).

The source file concatenates two revisions of the engine.  The claims reference
the second revision (lines 214-487: `SchemaRow`-based schema diffing, table-id
diffing, batched deletion, data export) and the first revision's field-level
`compareTable` (lines 72-98).  Both are embedded below.

Database state is modelled as the list of `sqlite_master` rows with non-null
`sql`, which is exactly what `scanSchema` reads.  Executing a create statement
adds its row (failing if an object with the same `(type, name)` identity
exists); dropping removes the named object (failing if absent).  The
better-sqlite3 `db.transaction(fn)()` wrapper is external to the repository and
is modelled with its documented semantics: on an exception the transaction is
rolled back (state unchanged) and the exception is rethrown.
-/

/-- Kind of a schema object, the TS union `'table' | 'index'` of `SchemaRow.type`. -/
inductive SchemaType where
  | table
  | index
  deriving DecidableEq, Repr

/-- Row of `sqlite_master` as read by `scanSchema` (src/core.ts lines 218-235). -/
structure SchemaRow where
  type : SchemaType
  name : String
  sql : String
  deriving DecidableEq, Repr

/-- Tag of a schema diff entry, the TS union `'created' | 'updated' | 'deleted'`. -/
inductive DiffType where
  | created
  | updated
  | deleted
  deriving DecidableEq, Repr

/-- Schema diff entry (src/core.ts lines 237-240). -/
structure SchemaDiff where
  type : DiffType
  schema : SchemaRow
  deriving DecidableEq, Repr

/-- Identity test used by the `find` callbacks in `compareSchema`:
`row.type == type && row.name == name`. -/
def matchesIdentity (type : SchemaType) (name : String) (row : SchemaRow) : Bool :=
  row.type == type && row.name == name

/-- Embedding of `compareSchema` (src/core.ts lines 242-267): one pass over the
source rows emitting `created` (absent from destination) or `updated`
(present with different `sql`), then one pass over the destination rows
emitting `deleted` for rows absent from the source. -/
def compareSchema (src dest : List SchemaRow) : List SchemaDiff :=
  (src.filterMap (fun s =>
    match dest.find? (matchesIdentity s.type s.name) with
    | none => some ⟨DiffType.created, s⟩
    | some d => if d.sql != s.sql then some ⟨DiffType.updated, s⟩ else none)) ++
  (dest.filterMap (fun d =>
    match src.find? (matchesIdentity d.type d.name) with
    | none => some ⟨DiffType.deleted, d⟩
    | some _ => none))

/-- Error raised by the modelled SQLite engine when executing a statement. -/
inductive ExecError where
  | noSuchObject (type : SchemaType) (name : String)
  | objectExists (type : SchemaType) (name : String)
  deriving DecidableEq, Repr

/-- Semantics of `db.exec(row.sql)` for a create statement stored in
`sqlite_master`: it creates the object described by the row, failing when an
object with the same identity already exists. -/
def execCreate (row : SchemaRow) (db : List SchemaRow) :
    Except ExecError (List SchemaRow) :=
  if db.any (matchesIdentity row.type row.name) then
    Except.error (ExecError.objectExists row.type row.name)
  else
    Except.ok (db ++ [row])

/-- Semantics of `drop table`/`drop index` on the modelled state. -/
def dropObject (type : SchemaType) (name : String) (db : List SchemaRow) :
    Except ExecError (List SchemaRow) :=
  if db.any (matchesIdentity type name) then
    Except.ok (db.filter (fun r => !(matchesIdentity type name r)))
  else
    Except.error (ExecError.noSuchObject type name)

/-- Name interpolated by `dropSchema` (src/core.ts lines 269-280).  The source
reads `wrapName(scanSchema.name)` where `scanSchema` is the function declared
above it, so the JS `Function.prototype.name` property yields the constant
string "scanSchema" — not `schema.name`, the name carried by the entry. -/
def scanSchemaFunctionName : String := "scanSchema"

/-- Embedding of `dropSchema` (src/core.ts lines 269-280): the drop kind follows
`schema.type`, but the dropped name is always `scanSchema.name`, i.e. the
literal string "scanSchema" (see `scanSchemaFunctionName`). -/
def dropSchema (schema : SchemaRow) (db : List SchemaRow) :
    Except ExecError (List SchemaRow) :=
  match schema.type with
  | SchemaType.table => dropObject SchemaType.table scanSchemaFunctionName db
  | SchemaType.index => dropObject SchemaType.index scanSchemaFunctionName db

/-- One iteration of the loop in `syncSchema` (src/core.ts lines 289-305).
Returns the state reached together with the first error, if any; the state at
an error reflects the statements already executed (the `updated` branch drops
before it creates). -/
def applyDiff (diff : SchemaDiff) (db : List SchemaRow) :
    List SchemaRow × Option ExecError :=
  match diff.type with
  | DiffType.created =>
    match execCreate diff.schema db with
    | Except.ok db1 => (db1, none)
    | Except.error e => (db, some e)
  | DiffType.updated =>
    match dropSchema diff.schema db with
    | Except.error e => (db, some e)
    | Except.ok db1 =>
      match execCreate diff.schema db1 with
      | Except.ok db2 => (db2, none)
      | Except.error e => (db1, some e)
  | DiffType.deleted =>
    match dropSchema diff.schema db with
    | Except.ok db1 => (db1, none)
    | Except.error e => (db, some e)

/-- The whole loop body handed to `run` by `syncSchema`: apply the entries in
order, stopping at the first error. -/
def runDiffs : List SchemaDiff → List SchemaRow → List SchemaRow × Option ExecError
  | [], db => (db, none)
  | d :: rest, db =>
    match applyDiff d db with
    | (db1, none) => runDiffs rest db1
    | (db1, some e) => (db1, some e)

/-- Error as observed by the caller of `syncSchema`.  The code rethrows the
engine's error unchanged (`raw`).  The `schemaApplyError` constructor is
modelled from the spec: the spec's section 7 describes a tagged
`SchemaApplyError{entry, cause}` wrapper, which does not occur anywhere in
src/core.ts; it is declared here so that its absence can be stated. -/
inductive SyncError where
  | raw (cause : ExecError)
  | schemaApplyError (entry : SchemaDiff) (cause : ExecError)
  deriving DecidableEq, Repr

/-- Embedding of `syncSchema` together with its `run` helper (src/core.ts lines
282-319).  With `skipTransaction` the loop runs bare, so the state reached at a
failure persists; otherwise `db.transaction` rolls the state back to the
original on failure and rethrows the error unchanged. -/
def syncSchema (db : List SchemaRow) (diffs : List SchemaDiff)
    (skipTransaction : Bool) : List SchemaRow × Option SyncError :=
  if skipTransaction then
    match runDiffs diffs db with
    | (db1, none) => (db1, none)
    | (db1, some e) => (db1, some (SyncError.raw e))
  else
    match runDiffs diffs db with
    | (db1, none) => (db1, none)
    | (_, some e) => (db, some (SyncError.raw e))

/-- Insertion-order iteration of a JS `Set` built from a list: the list of
first occurrences.  `new Set(xs)` keeps each value once, in the order of its
first occurrence, and `for..of` iterates in that order. -/
def dedupFirst {α : Type} [DecidableEq α] : List α → List α
  | [] => []
  | a :: l => a :: dedupFirst (l.filter (fun b => b != a))
termination_by l => l.length
decreasing_by
  simp only [List.length_cons]
  exact Nat.lt_succ_of_le (List.length_filter_le _ _)

/-- Result of `compareTableIds` (src/core.ts lines 368-371). -/
structure TableIdDiff (α : Type) where
  created : List α
  deleted : List α
  deriving DecidableEq, Repr

/-- Embedding of `compareTableIds` (src/core.ts lines 373-392): both inputs are
poured into JS `Set`s; iterating the source set keeps the ids missing from the
destination set (`created`), iterating the destination set keeps the ids
missing from the source set (`deleted`). -/
def compareTableIds {α : Type} [DecidableEq α] (src dest : List α) : TableIdDiff α :=
  { created := (dedupFirst src).filter (fun id => !(dest.contains id))
    deleted := (dedupFirst dest).filter (fun id => !(src.contains id)) }

/-- Embedding of `getIdField` (src/core.ts lines 356-366). -/
def getIdField (table : String) (field : Option String) : String :=
  match field with
  | some f => f
  | none =>
    match table with
    | "sqlite_sequence" => "name"
    | "knex_migrations_lock" => "index"
    | _ => "id"

/-- Embedding of `wrapName` (src/core.ts lines 449-451): backtick quoting. -/
def wrapName (name : String) : String := "`" ++ name ++ "`"

/-- The SQL text prepared by `scanTableIds` (src/core.ts lines 342-354): it
selects the column chosen by `getIdField`. -/
def scanTableIdsSql (table : String) (field : Option String) : String :=
  "select " ++ wrapName (getIdField table field) ++ " from " ++ wrapName table

/-- The SQL text prepared by `syncTableIds` (src/core.ts lines 405-407) for its
delete statement.  The column is the hard-coded literal `id`; `syncTableIds`
neither calls `getIdField` nor accepts a `field` option. -/
def deleteStatementSql (table : String) : String :=
  "delete from " ++ wrapName table ++ " where id in ?"

/-- The buffer loop of `deleteAll` inside `syncTableIds` (src/core.ts lines
413-423): each id is pushed onto the buffer, the buffer is flushed as one
delete statement when `buffer.length > batchSize`, and a non-empty remainder
is flushed at the end.  Returns the batches in the order their statements are
run. -/
def batchLoop {α : Type} (batchSize : Nat) : List α → List α → List (List α)
  | [], buffer => if buffer.length > 0 then [buffer] else []
  | id :: rest, buffer =>
    let buffer1 := buffer ++ [id]
    if buffer1.length > batchSize then buffer1 :: batchLoop batchSize rest []
    else batchLoop batchSize rest buffer1

/-- Batches deleted by `deleteAll` (src/core.ts lines 408-424), one delete
statement per returned list.  The TS `batchSize` is `number | false` with
default 200 and `!batchSize` guarding the unbatched path, so the falsy values
`0` and `false` are both modelled by `0`: the whole key list goes into one
unbounded statement. -/
def deleteBatches {α : Type} (batchSize : Nat) (deleted : List α) : List (List α) :=
  if batchSize == 0 then [deleted] else batchLoop batchSize deleted []

/-- Field of a parsed table, the quick-erd `Field` AST consumed by the first
revision's `compareTable` (src/core.ts lines 72-98).  The source name `Field`
is taken by Mathlib, hence the prefixed Lean name.  The attributes are the
ones the spec's data model lists for a `FieldDefinition`; only `name` and the
nullability flag `is_null` are treated specially by the code, every other
attribute merely participates in the structural (JSON) equality test. -/
structure ErdField where
  name : String
  type : String
  is_null : Bool
  is_primary_key : Bool
  default_value : Option String
  deriving DecidableEq, Repr

/-- Parsed table: name and ordered field list (quick-erd `Table`). -/
structure Table where
  name : String
  field_list : List ErdField
  deriving DecidableEq, Repr

/-- Field-level diff entry (src/core.ts lines 35-38). -/
inductive FieldDiff where
  | addColumn (field : ErdField)
  | dropColumn (name : String)
  | alterColumn (field : ErdField)
  deriving DecidableEq, Repr

/-- The nullability normalization `{...field, is_null: true}` applied to both
sides before the comparison at src/core.ts lines 82-83. -/
def setNullTrue (f : ErdField) : ErdField := { f with is_null := true }

/-- The inner loop at src/core.ts lines 88-95: one `drop-column` entry per
destination field whose name matches no source field. -/
def dropColumnEntries (src dest : Table) : List FieldDiff :=
  dest.field_list.filterMap (fun destField =>
    match src.field_list.find? (fun f => f.name == destField.name) with
    | some _ => none
    | none => some (FieldDiff.dropColumn destField.name))

/-- Embedding of `compareTable` (src/core.ts lines 72-98).  For each source
field: missing from the destination gives `add-column`; present but different
after nullability normalization gives `alter-column` carrying the normalized
source field (the code pushes the reassigned `srcField`) and `continue`s;
otherwise — and only then — the drop-column loop runs, because in the source
that loop is nested inside the body of the source-field loop rather than
following it. -/
def compareTable (src dest : Table) : List FieldDiff :=
  (src.field_list.map (fun srcField =>
    match dest.field_list.find? (fun f => f.name == srcField.name) with
    | none => [FieldDiff.addColumn srcField]
    | some destField =>
      if setNullTrue srcField != setNullTrue destField then
        [FieldDiff.alterColumn (setNullTrue srcField)]
      else
        dropColumnEntries src dest)).flatten

/-- Count of `alter-column` entries naming a given field. -/
def alterColumnCountFor (diffs : List FieldDiff) (name : String) : Nat :=
  diffs.countP (fun e =>
    match e with
    | FieldDiff.alterColumn f => f.name == name
    | _ => false)

/-- Value stored in one column of a SQLite row, as seen by `exportTableData`. -/
inductive SqlValue where
  | intVal (i : Int)
  | textVal (s : String)
  | nullVal
  deriving DecidableEq, Repr

/-- Decimal digit character, written by cases so its shape is evident. -/
def digitChar (d : Nat) : Char :=
  if d = 0 then '0'
  else if d = 1 then '1'
  else if d = 2 then '2'
  else if d = 3 then '3'
  else if d = 4 then '4'
  else if d = 5 then '5'
  else if d = 6 then '6'
  else if d = 7 then '7'
  else if d = 8 then '8'
  else '9'

/-- Decimal digits of a natural number, most significant first (empty for 0). -/
def natDigits (n : Nat) : List Char :=
  if n = 0 then [] else natDigits (n / 10) ++ [digitChar (n % 10)]
termination_by n
decreasing_by omega

/-- Decimal rendering of a natural number, as JS `JSON.stringify` renders an
integral number. -/
def natToDecimal (n : Nat) : String :=
  if n = 0 then "0" else String.mk (natDigits n)

/-- Decimal rendering of an integer. -/
def intToDecimal (i : Int) : String :=
  if i < 0 then "-" ++ natToDecimal i.natAbs else natToDecimal i.natAbs

/-- JSON escaping of one character, modelling the JS `JSON.stringify` string
escapes relevant here (quote, backslash and the common control characters);
every other character is emitted as itself. -/
def escapeChar (c : Char) : String :=
  if c = '"' then "\\\""
  else if c = '\\' then "\\\\"
  else if c = '\n' then "\\n"
  else if c = '\r' then "\\r"
  else if c = '\t' then "\\t"
  else String.mk [c]

/-- JSON escaping of a character list. -/
def escapeList : List Char → String
  | [] => ""
  | c :: rest => escapeChar c ++ escapeList rest

/-- JSON rendering of a string value: escaped and surrounded by quotes. -/
def encodeString (s : String) : String :=
  "\"" ++ escapeList s.data ++ "\""

/-- JSON rendering of one column value, the effect of `JSON.stringify` on the
members of `Object.values(row)`. -/
def jsonValue : SqlValue → String
  | SqlValue.intVal i => intToDecimal i
  | SqlValue.textVal s => encodeString s
  | SqlValue.nullVal => "null"

/-- Comma-joined concatenation, how `JSON.stringify` joins array elements. -/
def joinComma : List String → String
  | [] => ""
  | [s] => s
  | s :: s2 :: rest => s ++ "," ++ joinComma (s2 :: rest)

/-- The line built for one row at src/core.ts line 482:
`JSON.stringify(Object.values(row))` — a JSON array of the row's column values
in result-column order — with no trailing newline yet. -/
def jsonRow (row : List SqlValue) : String :=
  "[" ++ joinComma (row.map jsonValue) ++ "]"

/-- Path of the export file, `path.join(dir, name)` for plain segments. -/
def exportFilePath (dir name : String) : String := dir ++ "/" ++ name

/-- Embedding of the file writes of `exportTableData` (src/core.ts lines
454-486): `fs.writeFileSync(file, '')` first truncates the file whatever it
held before (`priorContent` is discarded), then each row appends its JSON
array line followed by a newline.  Progress output goes to stdout, not to the
file. -/
def exportFileContent (priorContent : String) (rows : List (List SqlValue)) :
    String :=
  rows.foldl (fun acc row => acc ++ (jsonRow row ++ "\n")) ""

/-- Number of newline characters in a string; the export file ends every
record with a newline and contains no other newlines, so this counts its
lines. -/
def countLines (s : String) : Nat := s.data.count '\n'

/-- C1.  The claimed idempotence fails on the code: with source
`{scanSchema}` and destination `{t, scanSchema}`, the only diff entry is
`deleted t`, `syncSchema` applies it without any error — but `dropSchema`
drops the object named "scanSchema" instead of "t", so re-diffing afterwards
yields `[created scanSchema, deleted t]`, not the empty list. -/
theorem C1_idempotence_fails_on_code :
    (syncSchema
        [⟨SchemaType.table, "t", "create table t"⟩,
         ⟨SchemaType.table, "scanSchema", "create table s"⟩]
        (compareSchema
          [⟨SchemaType.table, "scanSchema", "create table s"⟩]
          [⟨SchemaType.table, "t", "create table t"⟩,
           ⟨SchemaType.table, "scanSchema", "create table s"⟩])
        false).2 = none ∧
    compareSchema
        [⟨SchemaType.table, "scanSchema", "create table s"⟩]
        (syncSchema
          [⟨SchemaType.table, "t", "create table t"⟩,
           ⟨SchemaType.table, "scanSchema", "create table s"⟩]
          (compareSchema
            [⟨SchemaType.table, "scanSchema", "create table s"⟩]
            [⟨SchemaType.table, "t", "create table t"⟩,
             ⟨SchemaType.table, "scanSchema", "create table s"⟩])
          false).1
      ≠ [] := by
  decide

/-- C2.  The claimed batching bound fails on the code: with batch size 1 and
two deleted keys, `deleteAll` issues a single statement whose batch holds both
keys (the buffer is flushed only when its length exceeds `batchSize`), instead
of the claimed ceil(2/1) = 2 statements of at most one key each. -/
theorem C2_batching_fails_on_code :
    deleteBatches 1 ([1, 2] : List Nat) = [[1, 2]] ∧
    (deleteBatches 1 ([1, 2] : List Nat)).length ≠ 2 ∧
    ¬(∀ batch ∈ deleteBatches 1 ([1, 2] : List Nat), batch.length ≤ 1) := by
  decide

/-- C3.  The claimed drop target fails on the code: applying the entry
`deleted t` to a database holding tables `t` and `scanSchema` succeeds but
removes `scanSchema` and leaves `t` in place, because `dropSchema`
interpolates `scanSchema.name` — the `scanSchema` function's own name — where
`schema.name` was intended. -/
theorem C3_drop_target_fails_on_code :
    applyDiff ⟨DiffType.deleted, ⟨SchemaType.table, "t", "create table t"⟩⟩
        [⟨SchemaType.table, "t", "create table t"⟩,
         ⟨SchemaType.table, "scanSchema", "create table s"⟩]
      = ([⟨SchemaType.table, "t", "create table t"⟩], none) ∧
    applyDiff ⟨DiffType.deleted, ⟨SchemaType.table, "t", "create table t"⟩⟩
        [⟨SchemaType.table, "t", "create table t"⟩]
      = ([⟨SchemaType.table, "t", "create table t"⟩],
         some (ExecError.noSuchObject SchemaType.table "scanSchema")) := by
  decide

/-- C5.  The claimed drop-column uniqueness fails on the code: with source
fields `a, b` unchanged in the destination and an extra destination field `c`,
`compareTable` emits `drop-column c` twice (the drop loop is nested inside the
source-field loop and runs once per unchanged source field); and when the only
source field differs from its destination counterpart, the missing field `c`
gets no `drop-column` entry at all. -/
theorem C5_dropColumn_fails_on_code :
    (compareTable
        ⟨"users", [⟨"a", "integer", false, false, none⟩,
                   ⟨"b", "text", true, false, none⟩]⟩
        ⟨"users", [⟨"a", "integer", true, false, none⟩,
                   ⟨"b", "text", true, false, none⟩,
                   ⟨"c", "text", true, false, none⟩]⟩).count
        (FieldDiff.dropColumn "c") = 2 ∧
    (compareTable
        ⟨"users", [⟨"a", "integer", false, false, none⟩]⟩
        ⟨"users", [⟨"a", "text", true, false, none⟩,
                   ⟨"c", "text", true, false, none⟩]⟩).count
        (FieldDiff.dropColumn "c") = 0 := by
  decide

/-- C8.  The claimed column agreement fails on the code: for the table
`sqlite_sequence` the reader `scanTableIds` selects the policy column `name`
chosen by `getIdField`, but the delete statement prepared by `syncTableIds`
hard-codes the column `id`. -/
theorem C8_delete_column_fails_on_code :
    scanTableIdsSql "sqlite_sequence" none = "select `name` from `sqlite_sequence`" ∧
    deleteStatementSql "sqlite_sequence" = "delete from `sqlite_sequence` where id in ?" ∧
    getIdField "sqlite_sequence" none ≠ "id" ∧
    deleteStatementSql "sqlite_sequence"
      ≠ "delete from `sqlite_sequence` where "
          ++ wrapName (getIdField "sqlite_sequence" none) ++ " in ?" := by
  decide

/-- C7, counterexample.  The error reaching the caller is not tagged: syncing
the entry `deleted t` against an empty database fails (nothing to drop), the
transaction rolls back, and the caller receives the raw engine error — there
is no input on which `syncSchema` produces a `schemaApplyError`-shaped value,
as witnessed here at this concrete failing run. -/
theorem C7_error_not_tagged :
    syncSchema [] [⟨DiffType.deleted, ⟨SchemaType.table, "t", "create table t"⟩⟩] false
      = ([], some (SyncError.raw (ExecError.noSuchObject SchemaType.table "scanSchema"))) ∧
    ¬(∃ entry cause,
        (syncSchema [] [⟨DiffType.deleted, ⟨SchemaType.table, "t", "create table t"⟩⟩]
            false).2
          = some (SyncError.schemaApplyError entry cause)) := by
  refine ⟨by decide, ?_⟩
  rintro ⟨entry, cause, h⟩
  have h2 : (syncSchema []
      [⟨DiffType.deleted, ⟨SchemaType.table, "t", "create table t"⟩⟩] false).2
      = some (SyncError.raw (ExecError.noSuchObject SchemaType.table "scanSchema")) := by
    decide
  rw [h2] at h
  exact SyncError.noConfusion (Option.some.inj h)

/-- C7, amended.  When `syncSchema` runs without `skipTransaction` and the
body fails on some entry, the whole batch is rolled back — the destination
state is returned unchanged — and the caller receives the underlying engine
error unchanged (`SyncError.raw`), with no `SchemaApplyError`-style tagging. -/
theorem C7_transaction_rolls_back_raw_error (db : List SchemaRow)
    (diffs : List SchemaDiff) (st : List SchemaRow) (e : ExecError)
    (h : runDiffs diffs db = (st, some e)) :
    syncSchema db diffs false = (db, some (SyncError.raw e)) := by
  simp only [syncSchema, Bool.false_eq_true, if_false, h]

/-- C7, witness for the amended theorem at a concrete failing run. -/
theorem C7_transaction_rolls_back_raw_error_witness :
    syncSchema [] [⟨DiffType.deleted, ⟨SchemaType.table, "u", "create table u"⟩⟩] false
      = ([], some (SyncError.raw (ExecError.noSuchObject SchemaType.table "scanSchema"))) :=
  C7_transaction_rolls_back_raw_error [] _ []
    (ExecError.noSuchObject SchemaType.table "scanSchema") (by decide)





/-- Membership in the first-occurrence deduplication is membership in the
original list. -/
theorem mem_dedupFirst {α : Type} [DecidableEq α] (x : α) (l : List α) :
    x ∈ dedupFirst l ↔ x ∈ l := by
  induction l using dedupFirst.induct with
  | case1 => simp [dedupFirst]
  | case2 a t ih =>
    simp only [dedupFirst, List.mem_cons, ih, List.mem_filter, bne_iff_ne, ne_eq]
    by_cases hx : x = a
    · simp [hx]
    · simp [hx]

/-- First-occurrence deduplication yields a duplicate-free list. -/
theorem nodup_dedupFirst {α : Type} [DecidableEq α] (l : List α) :
    (dedupFirst l).Nodup := by
  induction l using dedupFirst.induct with
  | case1 => simp [dedupFirst]
  | case2 a t ih =>
    simp only [dedupFirst, List.nodup_cons]
    refine ⟨?_, ih⟩
    rw [mem_dedupFirst]
    simp [List.mem_filter]

/-- First-occurrence deduplication commutes with filtering. -/
theorem dedupFirst_filter {α : Type} [DecidableEq α] (p : α → Bool) (l : List α) :
    dedupFirst (l.filter p) = (dedupFirst l).filter p := by
  induction l using dedupFirst.induct with
  | case1 => simp [dedupFirst]
  | case2 a t ih =>
    by_cases hpa : p a = true
    · simp only [List.filter_cons, hpa, if_true, dedupFirst]
      congr 1
      rw [List.filter_comm]
      exact ih
    · simp only [List.filter_cons, hpa, if_false, dedupFirst]
      rw [← ih, List.filter_comm]
      congr 1
      symm
      apply List.filter_eq_self.mpr
      intro b hb
      have hpb := List.of_mem_filter hb
      simp only [bne_iff_ne, ne_eq, decide_eq_true_eq]
      intro hba
      rw [hba] at hpb
      exact hpa hpb

/-- C4.  For all source and destination key lists, `compareTableIds` returns
`created` with exactly the keys of src missing from dest and `deleted` with
exactly the keys of dest missing from src, so the two are disjoint and
together with the common keys they cover exactly the union of both lists. -/
theorem C4_compareTableIds_partition (src dest : List Int) :
    (∀ x : Int, x ∈ (compareTableIds src dest).created ↔ x ∈ src ∧ x ∉ dest) ∧
    (∀ x : Int, x ∈ (compareTableIds src dest).deleted ↔ x ∈ dest ∧ x ∉ src) ∧
    (∀ x : Int, ¬(x ∈ (compareTableIds src dest).created ∧
        x ∈ (compareTableIds src dest).deleted)) ∧
    (∀ x : Int,
      (x ∈ (compareTableIds src dest).created ∨
        x ∈ (compareTableIds src dest).deleted ∨ (x ∈ src ∧ x ∈ dest)) ↔
      (x ∈ src ∨ x ∈ dest)) := by
  have hc : ∀ x : Int, x ∈ (compareTableIds src dest).created ↔ x ∈ src ∧ x ∉ dest := by
    intro x
    simp [compareTableIds, List.mem_filter, mem_dedupFirst]
  have hd : ∀ x : Int, x ∈ (compareTableIds src dest).deleted ↔ x ∈ dest ∧ x ∉ src := by
    intro x
    simp [compareTableIds, List.mem_filter, mem_dedupFirst]
  refine ⟨hc, hd, ?_, ?_⟩
  · intro x
    rw [hc x, hd x]
    tauto
  · intro x
    rw [hc x, hd x]
    tauto

/-- C10.  Even on inputs with duplicates, `compareTableIds` returns
duplicate-free `created` and `deleted` lists; `created` lists the keys of
src absent from dest in the order of their first occurrence in src (it equals
the first-occurrence deduplication of the filtered source list), and
symmetrically for `deleted`. -/
theorem C10_compareTableIds_nodup_order (src dest : List Int) :
    (compareTableIds src dest).created.Nodup ∧
    (compareTableIds src dest).deleted.Nodup ∧
    (compareTableIds src dest).created
      = dedupFirst (src.filter (fun x => !(dest.contains x))) ∧
    (compareTableIds src dest).deleted
      = dedupFirst (dest.filter (fun x => !(src.contains x))) := by
  refine ⟨(nodup_dedupFirst src).filter _, (nodup_dedupFirst dest).filter _, ?_, ?_⟩
  · rw [compareTableIds, dedupFirst_filter]
  · rw [compareTableIds, dedupFirst_filter]

/-- Inversion for `alter-column` entries of `compareTable`: each such entry
comes from a source field found in the destination whose normalized form
differs, and it carries the normalized source field. -/
theorem alterColumn_mem_compareTable {src dest : Table} {f : ErdField}
    (h : FieldDiff.alterColumn f ∈ compareTable src dest) :
    ∃ s d, s ∈ src.field_list ∧
      dest.field_list.find? (fun x => x.name == s.name) = some d ∧
      setNullTrue s ≠ setNullTrue d ∧ f = setNullTrue s := by
  rw [compareTable, List.mem_flatten] at h
  obtain ⟨l, hl, hf⟩ := h
  rw [List.mem_map] at hl
  obtain ⟨s, hs, rfl⟩ := hl
  split at hf
  · simp at hf
  · rename_i d hfind
    split at hf
    · rename_i hne
      simp only [List.mem_singleton, FieldDiff.alterColumn.injEq] at hf
      exact ⟨s, d, hs, hfind, by simpa using hne, hf⟩
    · rename_i hne
      exfalso
      rw [dropColumnEntries, List.mem_filterMap] at hf
      obtain ⟨df, hdf, heq2⟩ := hf
      split at heq2 <;> simp at heq2

/-- C6.  In field-level table diffing, a pair of equally named fields that are
identical in every attribute except nullability produces no `alter-column`
entry for that field: both sides are normalized to `is_null: true` before the
comparison, so the normalized fields coincide and the alter branch is not
taken (field names are assumed unique per table, as parsed tables provide). -/
theorem C6_nullability_normalized_away (src dest : Table) (fs fd : ErdField)
    (hs : fs ∈ src.field_list) (hd : fd ∈ dest.field_list)
    (hname : fd.name = fs.name)
    (heq : setNullTrue fs = setNullTrue fd)
    (hnds : (src.field_list.map ErdField.name).Nodup)
    (hndd : (dest.field_list.map ErdField.name).Nodup) :
    alterColumnCountFor (compareTable src dest) fs.name = 0 := by
  rw [alterColumnCountFor, List.countP_eq_zero]
  intro e he hp
  cases e with
  | addColumn g => simp at hp
  | dropColumn n => simp at hp
  | alterColumn g =>
    simp only [beq_iff_eq] at hp
    obtain ⟨s, d, hsmem, hfind, hne, rfl⟩ := alterColumn_mem_compareTable he
    have hsname : s.name = fs.name := hp
    have hseq : s = fs := List.inj_on_of_nodup_map hnds hsmem hs hsname
    subst hseq
    have hdmem : d ∈ dest.field_list := List.mem_of_find?_eq_some hfind
    have hdname := List.find?_some hfind
    rw [beq_iff_eq] at hdname
    have hdeq : d = fd := by
      apply List.inj_on_of_nodup_map hndd hdmem hd
      rw [hdname, hname]
    subst hdeq
    exact hne heq

/-- C6, witness: concrete fields `a` differing only in nullability yield a
diff with no `alter-column` entry for `a`. -/
theorem C6_nullability_normalized_away_witness :
    alterColumnCountFor
      (compareTable
        ⟨"users", [⟨"a", "integer", false, false, none⟩]⟩
        ⟨"users", [⟨"a", "integer", true, false, none⟩]⟩)
      "a" = 0 :=
  C6_nullability_normalized_away
    ⟨"users", [⟨"a", "integer", false, false, none⟩]⟩
    ⟨"users", [⟨"a", "integer", true, false, none⟩]⟩
    ⟨"a", "integer", false, false, none⟩
    ⟨"a", "integer", true, false, none⟩
    (by decide) (by decide) (by decide) (by decide) (by decide) (by decide)

/-- Newlines in a concatenation are the newlines of both parts. -/
theorem countLines_append (s t : String) :
    countLines (s ++ t) = countLines s + countLines t := by
  simp [countLines, String.data_append, List.count_append]

/-- Digit characters are never the newline character. -/
theorem digitChar_ne_newline (d : Nat) : digitChar d ≠ '\n' := by
  unfold digitChar
  split_ifs <;> decide

/-- Decimal digit lists contain no newline. -/
theorem count_newline_natDigits (n : Nat) : (natDigits n).count '\n' = 0 := by
  induction n using natDigits.induct with
  | case1 => simp [natDigits]
  | case2 n hn ih =>
    rw [natDigits, if_neg hn]
    rw [List.count_append, ih]
    have hd := digitChar_ne_newline (n % 10)
    simp [List.count_cons, hd]

/-- Decimal renderings of naturals contain no newline. -/
theorem countLines_natToDecimal (n : Nat) : countLines (natToDecimal n) = 0 := by
  rw [natToDecimal]
  split
  · decide
  · exact count_newline_natDigits n

/-- Decimal renderings of integers contain no newline. -/
theorem countLines_intToDecimal (i : Int) : countLines (intToDecimal i) = 0 := by
  rw [intToDecimal]
  split
  · rw [countLines_append, countLines_natToDecimal]
    decide
  · exact countLines_natToDecimal i.natAbs

/-- JSON character escaping never emits a newline: the newline character
itself is escaped to the two characters backslash-n. -/
theorem countLines_escapeChar (c : Char) : countLines (escapeChar c) = 0 := by
  unfold escapeChar
  split_ifs with h1 h2 h3 h4 h5
  · decide
  · decide
  · decide
  · decide
  · decide
  · simp [countLines, List.count_cons, h3]

/-- JSON escaping of a character list emits no newline. -/
theorem countLines_escapeList (l : List Char) : countLines (escapeList l) = 0 := by
  induction l with
  | nil => decide
  | cons c rest ih =>
    rw [escapeList, countLines_append, countLines_escapeChar, ih]

/-- JSON renderings of column values contain no newline. -/
theorem countLines_jsonValue (v : SqlValue) : countLines (jsonValue v) = 0 := by
  cases v with
  | intVal i => exact countLines_intToDecimal i
  | textVal s =>
    rw [jsonValue, encodeString, countLines_append, countLines_append]
    rw [countLines_escapeList]
    decide
  | nullVal => decide

/-- Comma-joining newline-free strings stays newline free. -/
theorem countLines_joinComma (l : List String) (h : ∀ s ∈ l, countLines s = 0) :
    countLines (joinComma l) = 0 := by
  induction l using joinComma.induct with
  | case1 => decide
  | case2 s => exact h s (by simp)
  | case3 s s2 rest ih =>
    rw [joinComma, countLines_append, countLines_append]
    rw [h s (by simp), ih (fun x hx => h x (List.mem_cons_of_mem s hx))]
    decide

/-- A serialized row line contains no newline before the one appended after
it: the JSON array text of a row is newline free. -/
theorem countLines_jsonRow (row : List SqlValue) : countLines (jsonRow row) = 0 := by
  rw [jsonRow, countLines_append, countLines_append]
  rw [countLines_joinComma]
  · decide
  · intro s hs
    rw [List.mem_map] at hs
    obtain ⟨v, hv, rfl⟩ := hs
    exact countLines_jsonValue v

/-- The export content is exactly the concatenation of the rows' JSON lines,
each followed by a newline. -/
theorem exportFileContent_eq_join (prior : String) (rows : List (List SqlValue)) :
    exportFileContent prior rows
      = String.join (rows.map (fun row => jsonRow row ++ "\n")) := by
  rw [exportFileContent, String.join, List.foldl_map]

/-- Folding the export writes over any accumulator adds one newline per row. -/
theorem countLines_export_foldl (rows : List (List SqlValue)) (acc : String) :
    countLines (rows.foldl (fun a row => a ++ (jsonRow row ++ "\n")) acc)
      = countLines acc + rows.length := by
  induction rows generalizing acc with
  | nil => simp
  | cons r rest ih =>
    simp only [List.foldl_cons, List.length_cons]
    rw [ih, countLines_append, countLines_append, countLines_jsonRow]
    have h1 : countLines "\n" = 1 := rfl
    rw [h1]
    omega

/-- C9.  `exportTableData` writes to the file at `<dir>/<table>`; whatever the
file held before is discarded, and the final content is exactly the
concatenation, one per row, of the row's column values rendered as a JSON
array in result-column order followed by a newline — no header, no footer.
Since each rendered row is newline free, the file has exactly one
newline-terminated line per row. -/
theorem C9_exportTableData_lines (dir name prior : String)
    (rows : List (List SqlValue)) :
    exportFilePath dir name = dir ++ "/" ++ name ∧
    exportFileContent prior rows
      = String.join (rows.map (fun row => jsonRow row ++ "\n")) ∧
    countLines (exportFileContent prior rows) = rows.length := by
  refine ⟨rfl, exportFileContent_eq_join prior rows, ?_⟩
  rw [exportFileContent, countLines_export_foldl]
  have h0 : countLines "" = 0 := rfl
  rw [h0]
  omega
